import Mathlib

/-!
Shallow embedding of the Allusion presentation-layer sources:
UiStore selection actions, the slide-mode image viewer, gallery-item
drag-and-drop and thumbnail derivation, and the toolbar button widget.
Identifiers (file ids, tag ids) are strings in the source (`type ID = string`).
-/

namespace Allusion

/-- File and tag identifiers are strings in the source (entities/ID). -/
abbrev ID := String

/-- A `ClientFile` as far as the selection logic observes it: its id and
its list of tag ids (`file.tags`). -/
structure ClientFile where
  id : ID
  tags : List ID
deriving DecidableEq, Repr

/-- The observable state of `UiStore` relevant to the selection actions:
the file selection, the tag selection, and a log of the tag-id lists that
`fileStore.fetchFilesByTagIDs` was called with.  `FileStore` is backend
glue outside this layer, so the fetch is recorded rather than interpreted. -/
structure UiState where
  fileSelection : List ID
  tagSelection : List ID
  fetchLog : List (List ID)
deriving DecidableEq, Repr

/-- The mobx observable-array `remove(value)`: splice out the first
occurrence of `value`, leave the list unchanged when absent. -/
def removeFirst : List ID → ID → List ID
  | [], _ => []
  | x :: xs, y => if x = y then xs else x :: removeFirst xs y

/-- The lookup `fileStore.fileList.find((f) => f.id === id)` used by the
computed `clientFileSelection`. -/
def findFile (fileList : List ClientFile) (id : ID) : Option ClientFile :=
  fileList.find? (fun f => f.id == id)

/-- The computed `clientFileSelection`: map every selected id to its file
in `fileList`.  The source casts away the `undefined` case; an id without
a file makes later `file.tags` accesses throw, which the embedding
renders as `none`. -/
def lookupAll (fileList : List ClientFile) : List ID → Option (List ClientFile)
  | [] => some []
  | id :: ids =>
    match findFile fileList id, lookupAll fileList ids with
    | some f, some fs => some (f :: fs)
    | _, _ => none

/-- The test `file.tags.some((t) => this.tagSelection.includes(t))` inside
`cleanFileSelection`. -/
def hasSelectedTag (tagSel : List ID) (f : ClientFile) : Bool :=
  f.tags.any (fun t => tagSel.contains t)

/-- One iteration of the `forEach` in `cleanFileSelection`: deselect the
file (remove its id once) when none of its tags is selected. -/
def cleanStep (tagSel : List ID) (sel : List ID) (f : ClientFile) : List ID :=
  if hasSelectedTag tagSel f then sel else removeFirst sel f.id

/-- `UiStore.cleanFileSelection`: take the `clientFileSelection` snapshot
and deselect every file of it that carries no selected tag.  `none` models
the `TypeError` raised when a selected id has no file in `fileList`. -/
def cleanFileSelection (fileList : List ClientFile) (s : UiState) : Option UiState :=
  (lookupAll fileList s.fileSelection).map (fun snapshot =>
    { s with fileSelection := snapshot.foldl (cleanStep s.tagSelection) s.fileSelection })

/-- `fileStore.fetchFilesByTagIDs(this.tagSelection)`.  The file store is
outside this layer; the embedding records the call with its argument. -/
def fetchFilesByTagIDs (s : UiState) : UiState :=
  { s with fetchLog := s.fetchLog ++ [s.tagSelection] }

/-- `UiStore.selectFile`: push the file id onto `fileSelection`
unconditionally. -/
def selectFile (s : UiState) (f : ClientFile) : UiState :=
  { s with fileSelection := s.fileSelection ++ [f.id] }

/-- `UiStore.deselectFile`: remove one occurrence of the file id. -/
def deselectFile (s : UiState) (f : ClientFile) : UiState :=
  { s with fileSelection := removeFirst s.fileSelection f.id }

/-- `UiStore.clearFileSelection`: empty the file selection; nothing else
happens. -/
def clearFileSelection (s : UiState) : UiState :=
  { s with fileSelection := [] }

/-- `UiStore.selectTag`: push the tag id, clean the file selection, then
fetch files by the updated tag selection. -/
def selectTag (fileList : List ClientFile) (s : UiState) (tagId : ID) : Option UiState :=
  (cleanFileSelection fileList { s with tagSelection := s.tagSelection ++ [tagId] }).map
    fetchFilesByTagIDs

/-- `UiStore.deselectTag`: remove the tag id, clean the file selection,
then fetch files by the updated tag selection. -/
def deselectTag (fileList : List ClientFile) (s : UiState) (tagId : ID) : Option UiState :=
  (cleanFileSelection fileList { s with tagSelection := removeFirst s.tagSelection tagId }).map
    fetchFilesByTagIDs

/-- `UiStore.clearTagSelection`: empty the tag selection and fetch by the
now-empty selection.  No `cleanFileSelection` happens here. -/
def clearTagSelection (s : UiState) : UiState :=
  fetchFilesByTagIDs { s with tagSelection := [] }

/-- Whether the file a selected id refers to carries at least one tag of
the given tag selection (false when the id has no file). -/
def fileHasSelectedTag (fileList : List ClientFile) (tagSel : List ID) (id : ID) : Bool :=
  match findFile fileList id with
  | some f => hasSelectedTag tagSel f
  | none => false

/- Lemmas about `removeFirst`. -/

theorem removeFirst_append_singleton_perm (l : List ID) (x : ID) :
    (removeFirst (l ++ [x]) x).Perm l := by
  induction l with
  | nil => simp [removeFirst]
  | cons a l ih =>
    by_cases hax : a = x
    · simp only [List.cons_append, removeFirst, if_pos hax]
      exact hax ▸ List.perm_append_singleton x l
    · simp only [List.cons_append, removeFirst, if_neg hax]
      exact List.Perm.cons a ih

theorem removeFirst_cons_ne (y a : ID) (l : List ID) (h : a ≠ y) :
    removeFirst (a :: l) y = a :: removeFirst l y := by
  simp [removeFirst, h]

/- Lemmas about `lookupAll` (the clientFileSelection snapshot). -/

theorem findFile_some_id {fileList : List ClientFile} {id : ID} {f : ClientFile}
    (h : findFile fileList id = some f) : f.id = id := by
  have hp := List.find?_some h
  simpa using hp

theorem lookupAll_mem {fileList : List ClientFile} :
    ∀ {ids : List ID} {fs : List ClientFile}, lookupAll fileList ids = some fs →
      ∀ g ∈ fs, findFile fileList g.id = some g := by
  intro ids
  induction ids with
  | nil =>
    intro fs h g hg
    simp [lookupAll] at h
    subst h
    simp at hg
  | cons id ids ih =>
    intro fs h g hg
    unfold lookupAll at h
    cases hfind : findFile fileList id with
    | none => rw [hfind] at h; simp at h
    | some f =>
      rw [hfind] at h
      cases hrest : lookupAll fileList ids with
      | none => rw [hrest] at h; simp at h
      | some fs0 =>
        rw [hrest] at h
        simp only [Option.some.injEq] at h
        subst h
        rcases List.mem_cons.mp hg with hgf | hgm
        · subst hgf
          rw [findFile_some_id hfind]
          exact hfind
        · exact ih hrest g hgm

theorem lookupAll_isSome {fileList : List ClientFile} :
    ∀ {ids : List ID}, (∀ id ∈ ids, (findFile fileList id).isSome = true) →
      ∃ fs, lookupAll fileList ids = some fs := by
  intro ids
  induction ids with
  | nil => intro _; exact ⟨[], rfl⟩
  | cons id ids ih =>
    intro h
    have hid := h id (List.mem_cons_self id ids)
    obtain ⟨f, hf⟩ := Option.isSome_iff_exists.mp hid
    obtain ⟨fs, hfs⟩ := ih (fun i hi => h i (List.mem_cons_of_mem id hi))
    exact ⟨f :: fs, by simp [lookupAll, hf, hfs]⟩

/- The cleaning fold computes a filter of the selection. -/

theorem foldl_cleanStep_cons (tagSel : List ID) (x : ID) :
    ∀ (fs : List ClientFile) (sel : List ID),
      (∀ g ∈ fs, hasSelectedTag tagSel g = false → g.id ≠ x) →
      fs.foldl (cleanStep tagSel) (x :: sel) = x :: fs.foldl (cleanStep tagSel) sel := by
  intro fs
  induction fs with
  | nil => intro sel _; rfl
  | cons g fs ih =>
    intro sel h
    have htail : ∀ g2 ∈ fs, hasSelectedTag tagSel g2 = false → g2.id ≠ x :=
      fun g2 hg2 => h g2 (List.mem_cons_of_mem g hg2)
    by_cases hg : hasSelectedTag tagSel g = true
    · simp only [List.foldl_cons, cleanStep, if_pos hg]
      exact ih sel htail
    · have hgf : hasSelectedTag tagSel g = false := by
        simpa using hg
      have hne : g.id ≠ x := h g (List.mem_cons_self g fs) hgf
      simp only [List.foldl_cons, cleanStep, if_neg hg]
      rw [removeFirst_cons_ne g.id x]
      · exact ih (removeFirst sel g.id) htail
      · exact fun hxg => hne hxg.symm

theorem foldl_cleanStep_filter (tagSel : List ID) (fileList : List ClientFile) :
    ∀ (sel : List ID) (snapshot : List ClientFile),
      lookupAll fileList sel = some snapshot →
      snapshot.foldl (cleanStep tagSel) sel
        = sel.filter (fun id => fileHasSelectedTag fileList tagSel id) := by
  intro sel
  induction sel with
  | nil =>
    intro snapshot h
    simp [lookupAll] at h
    subst h
    rfl
  | cons x sel ih =>
    intro snapshot h
    unfold lookupAll at h
    cases hfind : findFile fileList x with
    | none => rw [hfind] at h; simp at h
    | some f =>
      rw [hfind] at h
      cases hrest : lookupAll fileList sel with
      | none => rw [hrest] at h; simp at h
      | some fs =>
        rw [hrest] at h
        simp only [Option.some.injEq] at h
        subst h
        have hpass : fileHasSelectedTag fileList tagSel x = hasSelectedTag tagSel f := by
          simp [fileHasSelectedTag, hfind]
        by_cases hf : hasSelectedTag tagSel f = true
        · have hskip : ∀ g ∈ fs, hasSelectedTag tagSel g = false → g.id ≠ x := by
            intro g hg hgfail hgx
            have hgfind : findFile fileList g.id = some g := lookupAll_mem hrest g hg
            rw [hgx, hfind] at hgfind
            have hgef : g = f := by injection hgfind.symm
            rw [hgef, hf] at hgfail
            simp at hgfail
          simp only [List.foldl_cons, cleanStep, if_pos hf]
          rw [foldl_cleanStep_cons tagSel x fs sel hskip, ih fs hrest]
          have hx : fileHasSelectedTag fileList tagSel x = true := by rw [hpass]; exact hf
          simp [List.filter_cons, hx]
        · have hfid : f.id = x := findFile_some_id hfind
          have hremove : removeFirst (x :: sel) x = sel := by
            simp [removeFirst]
          simp only [List.foldl_cons, cleanStep, if_neg hf]
          rw [hfid, hremove, ih fs hrest]
          have hx : fileHasSelectedTag fileList tagSel x = false := by
            rw [hpass]
            simpa using hf
          simp [List.filter_cons, hx]

/-- When every selected id has a file, `cleanFileSelection` succeeds and
keeps exactly the ids whose file carries a selected tag. -/
theorem cleanFileSelection_spec (fileList : List ClientFile) (s : UiState)
    (hpre : ∀ id ∈ s.fileSelection, (findFile fileList id).isSome = true) :
    cleanFileSelection fileList s
      = some { s with fileSelection :=
          s.fileSelection.filter (fun id => fileHasSelectedTag fileList s.tagSelection id) } := by
  obtain ⟨fs, hfs⟩ := lookupAll_isSome hpre
  simp [cleanFileSelection, hfs, foldl_cleanStep_filter s.tagSelection fileList s.fileSelection fs hfs]

/-- C1: starting from a state where every selected file id refers to a file
in `fileList`, both `selectTag` and `deselectTag` complete, and afterwards
every id still in `fileSelection` refers to a file at least one of whose
tags is in the current tag selection. -/
theorem selectTag_deselectTag_cleanSelection (fileList : List ClientFile)
    (s : UiState) (t : ID)
    (hpre : ∀ id ∈ s.fileSelection, (findFile fileList id).isSome = true) :
    (∃ s1, selectTag fileList s t = some s1 ∧
      ∀ id ∈ s1.fileSelection, fileHasSelectedTag fileList s1.tagSelection id = true) ∧
    (∃ s2, deselectTag fileList s t = some s2 ∧
      ∀ id ∈ s2.fileSelection, fileHasSelectedTag fileList s2.tagSelection id = true) := by
  constructor
  · have hclean := cleanFileSelection_spec fileList
      { s with tagSelection := s.tagSelection ++ [t] } hpre
    refine ⟨fetchFilesByTagIDs
      { fileSelection := s.fileSelection.filter
          (fun id => fileHasSelectedTag fileList (s.tagSelection ++ [t]) id),
        tagSelection := s.tagSelection ++ [t],
        fetchLog := s.fetchLog }, ?_, ?_⟩
    · unfold selectTag
      rw [hclean]
      rfl
    · intro id hid
      exact (List.mem_filter.mp hid).2
  · have hclean := cleanFileSelection_spec fileList
      { s with tagSelection := removeFirst s.tagSelection t } hpre
    refine ⟨fetchFilesByTagIDs
      { fileSelection := s.fileSelection.filter
          (fun id => fileHasSelectedTag fileList (removeFirst s.tagSelection t) id),
        tagSelection := removeFirst s.tagSelection t,
        fetchLog := s.fetchLog }, ?_, ?_⟩
    · unfold deselectTag
      rw [hclean]
      rfl
    · intro id hid
      exact (List.mem_filter.mp hid).2

/-- Witness for C1 at a concrete store state. -/
theorem selectTag_deselectTag_cleanSelection_witness :
    (∀ id ∈ (UiState.mk ["f1", "f2"] ["t1"] []).fileSelection,
      (findFile [⟨"f1", ["t1"]⟩, ⟨"f2", ["t2"]⟩] id).isSome = true) ∧
    ((∃ s1, selectTag [⟨"f1", ["t1"]⟩, ⟨"f2", ["t2"]⟩] (UiState.mk ["f1", "f2"] ["t1"] []) "t3"
        = some s1 ∧
      ∀ id ∈ s1.fileSelection,
        fileHasSelectedTag [⟨"f1", ["t1"]⟩, ⟨"f2", ["t2"]⟩] s1.tagSelection id = true) ∧
    (∃ s2, deselectTag [⟨"f1", ["t1"]⟩, ⟨"f2", ["t2"]⟩] (UiState.mk ["f1", "f2"] ["t1"] []) "t3"
        = some s2 ∧
      ∀ id ∈ s2.fileSelection,
        fileHasSelectedTag [⟨"f1", ["t1"]⟩, ⟨"f2", ["t2"]⟩] s2.tagSelection id = true)) :=
  ⟨by decide,
    selectTag_deselectTag_cleanSelection [⟨"f1", ["t1"]⟩, ⟨"f2", ["t2"]⟩]
      (UiState.mk ["f1", "f2"] ["t1"] []) "t3" (by decide)⟩

/-- C9: pushing a file id with `selectFile` and then removing it with
`deselectFile` leaves `fileSelection` the same multiset: `selectFile`
appends unconditionally and `deselectFile` removes exactly one
occurrence. -/
theorem selectFile_deselectFile_roundtrip (s : UiState) (f : ClientFile) :
    (selectFile s f).fileSelection = s.fileSelection ++ [f.id] ∧
    ((deselectFile (selectFile s f) f).fileSelection).Perm s.fileSelection ∧
    ∀ x : ID, ((deselectFile (selectFile s f) f).fileSelection).count x
      = s.fileSelection.count x := by
  refine ⟨rfl, ?_, ?_⟩
  · exact removeFirst_append_singleton_perm s.fileSelection f.id
  · intro x
    exact (removeFirst_append_singleton_perm s.fileSelection f.id).count_eq x

/-!
Slide-mode navigation (`SlideView` in ContentView/SlideMode/index.tsx).
Indices are JS numbers used integrally; the embedding uses `Int`.
-/

/-- Modelled from the spec: `UiStore.setFirstItem` (the store lives in
src/frontend/stores, which is not among the given sources) stores the
given index as `firstItem`. -/
def setFirstItem (i : Int) : Int := i

/-- `decrImgIndex`: `setFirstItem(Math.max(0, firstItem - 1))`. -/
def decrImgIndex (firstItem : Int) : Int :=
  setFirstItem (max 0 (firstItem - 1))

/-- `incrImgIndex`: `setFirstItem(Math.min(firstItem + 1, fileList.length - 1))`. -/
def incrImgIndex (firstItem len : Int) : Int :=
  setFirstItem (min (firstItem + 1) (len - 1))

/-- C2: for a non-empty file list and an in-range `firstItem`, the two
slide-navigation operations compute exactly the clamped neighbours and
keep the index inside `[0, fileList.length - 1]`. -/
theorem slideNavigation_in_range (firstItem len : Int)
    (hlen : 0 < len) (h0 : 0 ≤ firstItem) (h1 : firstItem ≤ len - 1) :
    decrImgIndex firstItem = max 0 (firstItem - 1) ∧
    incrImgIndex firstItem len = min (firstItem + 1) (len - 1) ∧
    0 ≤ decrImgIndex firstItem ∧ decrImgIndex firstItem ≤ len - 1 ∧
    0 ≤ incrImgIndex firstItem len ∧ incrImgIndex firstItem len ≤ len - 1 := by
  unfold decrImgIndex incrImgIndex setFirstItem
  refine ⟨rfl, rfl, ?_, ?_, ?_, ?_⟩ <;> omega

/-- Witness for C2 at the boundary index 0 of a two-element list. -/
theorem slideNavigation_in_range_witness :
    ((0 : Int) < 2 ∧ (0 : Int) ≤ 0 ∧ (0 : Int) ≤ 2 - 1) ∧
    (decrImgIndex 0 = max 0 (0 - 1) ∧
      incrImgIndex 0 2 = min (0 + 1) (2 - 1) ∧
      0 ≤ decrImgIndex 0 ∧ decrImgIndex 0 ≤ 2 - 1 ∧
      0 ≤ incrImgIndex 0 2 ∧ incrImgIndex 0 2 ≤ 2 - 1) :=
  ⟨⟨by decide, by decide, by decide⟩,
    slideNavigation_in_range 0 2 (by decide) (by decide) (by decide)⟩

/-!
Gallery-item drag-and-drop tagging (`GalleryItem.handleDrop`).
-/

/-- A `ClientTag` as the drop handler observes it: its id and its subtag
ids (`tag.subTags`, passed straight to `file.addTag`). -/
structure ClientTag where
  id : ID
  subTags : List ID
deriving DecidableEq, Repr

/-- Modelled from the spec: the drag-and-drop format constant `DnDType`
from Outliner/TagsPanel/DnD (not among the given sources). -/
def DnDType : String := "tag"

/-- A drop event as the handler reads it: the dataTransfer type list and
the payload returned by `getData(DnDType)` (the dragged tag id). -/
structure DropEvent where
  types : List String
  data : ID
deriving DecidableEq, Repr

/-- Lookup of a tag by id in the tag store. -/
def findTag (tagList : List ClientTag) (id : ID) : Option ClientTag :=
  tagList.find? (fun t => t.id == id)

/-- Modelled from the spec: `uiStore.getTagContextItems` (the store is not
among the given sources) resolves the dragged tag id to the dragged tag. -/
def getTagContextItems (tagList : List ClientTag) (id : ID) : List ClientTag :=
  (findTag tagList id).toList

/-- Modelled from the spec: `ClientFile.addTag` (entities/File is not
among the given sources) adds a tag id to the file's tags when not yet
present. -/
def addTag (f : ClientFile) (t : ID) : ClientFile :=
  if f.tags.contains t then f else { f with tags := f.tags ++ [t] }

/-- `GalleryItem.handleDrop`: when the dataTransfer types include
`DnDType`, add the dragged tag's id and all its subtag ids to the file;
otherwise do nothing. -/
def handleDrop (tagList : List ClientTag) (ev : DropEvent) (file : ClientFile) : ClientFile :=
  if ev.types.contains DnDType then
    (getTagContextItems tagList ev.data).foldl
      (fun f tag => tag.subTags.foldl addTag (addTag f tag.id)) file
  else file

theorem addTag_mem (f : ClientFile) (t : ID) : t ∈ (addTag f t).tags := by
  unfold addTag
  by_cases h : f.tags.contains t = true
  · rw [if_pos h]
    exact List.mem_of_elem_eq_true h
  · rw [if_neg h]
    simp

theorem addTag_mono {f : ClientFile} {t u : ID} (h : t ∈ f.tags) :
    t ∈ (addTag f u).tags := by
  unfold addTag
  by_cases hc : f.tags.contains u = true
  · rw [if_pos hc]; exact h
  · rw [if_neg hc]; simp [h]

theorem foldl_addTag_mono {t : ID} :
    ∀ (ts : List ID) (f : ClientFile), t ∈ f.tags → t ∈ (ts.foldl addTag f).tags := by
  intro ts
  induction ts with
  | nil => intro f h; exact h
  | cons u ts ih => intro f h; exact ih (addTag f u) (addTag_mono h)

theorem foldl_addTag_mem {t : ID} :
    ∀ (ts : List ID) (f : ClientFile), t ∈ ts → t ∈ (ts.foldl addTag f).tags := by
  intro ts
  induction ts with
  | nil => intro f h; simp at h
  | cons u ts ih =>
    intro f h
    rcases List.mem_cons.mp h with h1 | h2
    · subst h1
      exact foldl_addTag_mono ts (addTag f t) (addTag_mem f t)
    · exact ih (addTag f u) h2

/-- C3: a drop whose dataTransfer types include `DnDType` adds the
dragged tag's id and every one of its subtag ids to the file's tags; a
drop without the `DnDType` format leaves the file unchanged. -/
theorem handleDrop_spec (tagList : List ClientTag) (file : ClientFile)
    (ev evOther : DropEvent) (tag : ClientTag)
    (hty : ev.types.contains DnDType = true)
    (htag : findTag tagList ev.data = some tag)
    (htyOther : evOther.types.contains DnDType = false) :
    tag.id ∈ (handleDrop tagList ev file).tags ∧
    (∀ st ∈ tag.subTags, st ∈ (handleDrop tagList ev file).tags) ∧
    handleDrop tagList evOther file = file := by
  have hdrop : handleDrop tagList ev file
      = tag.subTags.foldl addTag (addTag file tag.id) := by
    unfold handleDrop getTagContextItems
    rw [if_pos hty, htag]
    rfl
  refine ⟨?_, ?_, ?_⟩
  · rw [hdrop]
    exact foldl_addTag_mono tag.subTags (addTag file tag.id) (addTag_mem file tag.id)
  · intro st hst
    rw [hdrop]
    exact foldl_addTag_mem tag.subTags (addTag file tag.id) hst
  · unfold handleDrop
    rw [htyOther]
    simp

/-- Witness for C3: dropping tag t1 (with subtag t2) onto a file, and a
non-tag drop onto the same file. -/
theorem handleDrop_spec_witness :
    ((DropEvent.mk [DnDType] "t1").types.contains DnDType = true ∧
      findTag [ClientTag.mk "t1" ["t2"]] (DropEvent.mk [DnDType] "t1").data
        = some (ClientTag.mk "t1" ["t2"]) ∧
      (DropEvent.mk ["text/plain"] "t1").types.contains DnDType = false) ∧
    ((ClientTag.mk "t1" ["t2"]).id
        ∈ (handleDrop [ClientTag.mk "t1" ["t2"]] (DropEvent.mk [DnDType] "t1")
            (ClientFile.mk "f1" [])).tags ∧
      (∀ st ∈ (ClientTag.mk "t1" ["t2"]).subTags,
        st ∈ (handleDrop [ClientTag.mk "t1" ["t2"]] (DropEvent.mk [DnDType] "t1")
            (ClientFile.mk "f1" [])).tags) ∧
      handleDrop [ClientTag.mk "t1" ["t2"]] (DropEvent.mk ["text/plain"] "t1")
          (ClientFile.mk "f1" []) = ClientFile.mk "f1" []) :=
  ⟨⟨by decide, by decide, by decide⟩,
    handleDrop_spec [ClientTag.mk "t1" ["t2"]] (ClientFile.mk "f1" [])
      (DropEvent.mk [DnDType] "t1") (DropEvent.mk ["text/plain"] "t1")
      (ClientTag.mk "t1" ["t2"]) (by decide) (by decide) (by decide)⟩

/-!
Gallery-item thumbnail readiness (`GalleryItem` in
renderer/frontend/components, second document of Icons.tsx).
-/

/-- The JavaScript `String.prototype.endsWith`, embedded over the
character lists of the strings. -/
def strEndsWith (s suffix : String) : Bool :=
  suffix.data.isSuffixOf s.data

/-- The effect on `[imagePath]`: when the path ends in the `?v=1` marker,
mark the thumbnail ready and no longer generating; otherwise the state
pair `(isThumbnailReady, isThumbnailGenerating)` is untouched. -/
def thumbnailReadyEffect (imagePath : String) (st : Bool × Bool) : Bool × Bool :=
  if strEndsWith imagePath ("?v=1") then (true, false) else st

/-- The three render alternatives of the gallery item's image area. -/
inductive GalleryImageRender where
  | image
  | loadingPlaceholder
  | missingFallback
deriving DecidableEq, Repr

/-- The render derivation: the `<img>` when the thumbnail is ready, else
the loading donut while generating, else the missing-image fallback. -/
def renderGalleryImage (isThumbnailReady isThumbnailGenerating : Bool) : GalleryImageRender :=
  if isThumbnailReady then GalleryImageRender.image
  else if isThumbnailGenerating then GalleryImageRender.loadingPlaceholder
  else GalleryImageRender.missingFallback

/-- C4: whenever the displayed `imagePath` ends with `?v=1`, the
readiness effect yields `isThumbnailReady = true` and
`isThumbnailGenerating = false`, so the item renders the image element. -/
theorem thumbnailReady_of_versionSuffix (imagePath : String) (st : Bool × Bool)
    (h : strEndsWith imagePath ("?v=1") = true) :
    thumbnailReadyEffect imagePath st = (true, false) ∧
    renderGalleryImage (thumbnailReadyEffect imagePath st).1
        (thumbnailReadyEffect imagePath st).2
      = GalleryImageRender.image := by
  have heff : thumbnailReadyEffect imagePath st = (true, false) := by
    unfold thumbnailReadyEffect
    rw [if_pos h]
  exact ⟨heff, by rw [heff]; rfl⟩

/-- Witness for C4 on a concrete freshly generated thumbnail path. -/
theorem thumbnailReady_of_versionSuffix_witness :
    (strEndsWith ("thumb.jpg?v=1") ("?v=1") = true) ∧
    (thumbnailReadyEffect ("thumb.jpg?v=1") (false, true) = (true, false) ∧
      renderGalleryImage (thumbnailReadyEffect ("thumb.jpg?v=1") (false, true)).1
          (thumbnailReadyEffect ("thumb.jpg?v=1") (false, true)).2
        = GalleryImageRender.image) :=
  ⟨by decide, thumbnailReady_of_versionSuffix ("thumb.jpg?v=1") (false, true) (by decide)⟩

/-!
`ZoomableImage` (ContentView/SlideMode/index.tsx): load-error handling,
the current-image state, and the minimum zoom scale.
-/

/-- The two render alternatives of `ZoomableImage`: the error placeholder
div or the `ZoomPan` viewer.  The source branches on the truthiness of
`loadError`; error events are truthy objects and the reset value
`undefined` is falsy, embedded as `Option`. -/
inductive ZoomableRender where
  | imageError
  | zoomPan
deriving DecidableEq, Repr

/-- The conditional `loadError ? <div className="image-error"/> : <ZoomPan .../>`. -/
def renderZoomableImage (loadError : Option String) : ZoomableRender :=
  match loadError with
  | some _ => ZoomableRender.imageError
  | none => ZoomableRender.zoomPan

/-- The effect `useEffect(() => setLoadError(undefined), [src])`: any
change of `src` resets the error state to `undefined`. -/
def resetLoadError (_loadError : Option String) : Option String :=
  none

/-- C5: the error placeholder is rendered exactly when a load error is
recorded, and the on-src-change effect resets the error state, so a new
source starts in the viewer (non-error) state. -/
theorem zoomableImage_loadError_spec (loadError : Option String) :
    (renderZoomableImage loadError = ZoomableRender.imageError ↔ loadError ≠ none) ∧
    resetLoadError loadError = none ∧
    renderZoomableImage (resetLoadError loadError) = ZoomableRender.zoomPan := by
  refine ⟨?_, rfl, rfl⟩
  cases loadError with
  | none => simp [renderZoomableImage]
  | some e => simp [renderZoomableImage]

/-- The dimension pair built by `createDimension` (SlideMode/utils, not
among the given sources; modelled from the spec as the width-height
pair). -/
def createDimension (w h : Int) : Int × Int := (w, h)

/-- The `currentImg` state of `ZoomableImage`: the displayed src together
with the dimensions it was loaded at. -/
structure CurrentImg where
  src : String
  dimensions : Int × Int
deriving DecidableEq, Repr

/-- The `img.onload` functional update: replace `currentImg` with the
full-resolution entry only when the previous src is still exactly
`thumbnailSrc` (`prevImg.src === thumbnailSrc`, false when
`thumbnailSrc` is `undefined`). -/
def onloadUpdate (src : String) (thumbnailSrc : Option String)
    (imgWidth imgHeight : Int) (prevImg : CurrentImg) : CurrentImg :=
  if (match thumbnailSrc with
      | some t => prevImg.src == t
      | none => false) then
    { src := src, dimensions := createDimension imgWidth imgHeight }
  else prevImg

/-- C8: once `currentImg.src` differs from `thumbnailSrc`, a later onload
callback leaves `currentImg` unchanged — the displayed image never
downgrades from full resolution back to the thumbnail. -/
theorem onloadUpdate_no_downgrade (src : String) (thumbnailSrc : Option String)
    (imgWidth imgHeight : Int) (prevImg : CurrentImg)
    (h : some prevImg.src ≠ thumbnailSrc) :
    onloadUpdate src thumbnailSrc imgWidth imgHeight prevImg = prevImg := by
  unfold onloadUpdate
  cases thumbnailSrc with
  | none => rfl
  | some t =>
    have hne : prevImg.src ≠ t := fun he => h (by rw [he])
    simp [hne]

/-- Witness for C8: the full-resolution image stays after a late onload. -/
theorem onloadUpdate_no_downgrade_witness :
    (some (CurrentImg.mk "full.jpg" (800, 600)).src ≠ some "thumb.jpg") ∧
    onloadUpdate "full.jpg" (some "thumb.jpg") 800 600 (CurrentImg.mk "full.jpg" (800, 600))
      = CurrentImg.mk "full.jpg" (800, 600) :=
  ⟨by decide, onloadUpdate_no_downgrade "full.jpg" (some "thumb.jpg") 800 600
    (CurrentImg.mk "full.jpg" (800, 600)) (by decide)⟩

/-- The minimum zoom scale
`Math.min(0.1, Math.min(width / imgWidth, height / imgHeight))`,
embedded over the rationals. -/
def minScale (width height imgWidth imgHeight : ℚ) : ℚ :=
  min (1 / 10) (min (width / imgWidth) (height / imgHeight))

/-- C6: for positive container and image dimensions the minimum scale is
exactly the source formula, never exceeds 0.1, and never exceeds the
scale at which the image exactly fits the container. -/
theorem minScale_bounds (width height imgWidth imgHeight : ℚ)
    (_hw : 0 < width) (_hh : 0 < height) (_hiw : 0 < imgWidth) (_hih : 0 < imgHeight) :
    minScale width height imgWidth imgHeight
        = min (1 / 10) (min (width / imgWidth) (height / imgHeight)) ∧
    minScale width height imgWidth imgHeight ≤ 1 / 10 ∧
    minScale width height imgWidth imgHeight
        ≤ min (width / imgWidth) (height / imgHeight) := by
  exact ⟨rfl, min_le_left _ _, min_le_right _ _⟩

/-- Witness for C6 at a 200x100 container showing a 400x300 image. -/
theorem minScale_bounds_witness :
    ((0 : ℚ) < 200 ∧ (0 : ℚ) < 100 ∧ (0 : ℚ) < 400 ∧ (0 : ℚ) < 300) ∧
    (minScale 200 100 400 300 = min (1 / 10) (min (200 / 400) (100 / 300)) ∧
      minScale 200 100 400 300 ≤ 1 / 10 ∧
      minScale 200 100 400 300 ≤ min ((200 : ℚ) / 400) (100 / 300)) :=
  ⟨⟨by norm_num, by norm_num, by norm_num, by norm_num⟩,
    minScale_bounds 200 100 400 300 (by norm_num) (by norm_num) (by norm_num) (by norm_num)⟩

/-!
The `ToolbarButton` widget (first unnamed source document).
-/

/-- The props of `ToolbarButton` that flow into the rendered button
element.  Optional props are `Option`; `onClick` handlers are tracked by
an identifier. -/
structure IToolbarButton where
  id : Option String
  onClick : Option Nat
  role : Option String
  pressed : Option Bool
  checked : Option Bool
  disabled : Option Bool
  expanded : Option Bool
  controls : Option String
  haspopup : Option String
  tabIndex : Option Int
deriving DecidableEq, Repr

/-- The attributes the component puts on the `<button>` element. -/
structure RenderedButton where
  id : Option String
  onClick : Option Nat
  role : Option String
  ariaPressed : Option Bool
  ariaChecked : Option Bool
  ariaDisabled : Option Bool
  ariaControls : Option String
  ariaHaspopup : Option String
  ariaExpanded : Option Bool
  tabIndex : Int
deriving DecidableEq, Repr

/-- `ToolbarButton`: `onClick={disabled ? undefined : onClick}` (the
truthiness of the optional `disabled` is `getD false`), the aria
attributes are passed through, and `tabIndex={tabIndex ?? -1}`. -/
def ToolbarButton (p : IToolbarButton) : RenderedButton :=
  { id := p.id
    onClick := if p.disabled.getD false then none else p.onClick
    role := p.role
    ariaPressed := p.pressed
    ariaChecked := p.checked
    ariaDisabled := p.disabled
    ariaControls := p.controls
    ariaHaspopup := p.haspopup
    ariaExpanded := p.expanded
    tabIndex := p.tabIndex.getD (-1) }

/-- Activating a rendered button invokes its attached handler, if any. -/
def clickButton (b : RenderedButton) : Option Nat :=
  b.onClick

/-- C7: a disabled `ToolbarButton` gets no onClick handler (so a click
invokes nothing), `aria-disabled` always reflects the `disabled` prop,
and an omitted `tabIndex` renders as -1. -/
theorem toolbarButton_spec (p q r : IToolbarButton)
    (hdis : p.disabled = some true) (htab : q.tabIndex = none) :
    (ToolbarButton p).onClick = none ∧
    clickButton (ToolbarButton p) = none ∧
    (ToolbarButton r).ariaDisabled = r.disabled ∧
    (ToolbarButton q).tabIndex = -1 := by
  have hp : (ToolbarButton p).onClick = none := by
    unfold ToolbarButton
    simp [hdis]
  refine ⟨hp, hp, rfl, ?_⟩
  unfold ToolbarButton
  simp [htab]

/-- Witness for C7 at concrete props. -/
theorem toolbarButton_spec_witness :
    ((IToolbarButton.mk none (some 7) none none none (some true) none none none (some 0)).disabled
        = some true ∧
      (IToolbarButton.mk none (some 8) none none none none none none none none).tabIndex = none) ∧
    ((ToolbarButton (IToolbarButton.mk none (some 7) none none none (some true) none none none
        (some 0))).onClick = none ∧
      clickButton (ToolbarButton (IToolbarButton.mk none (some 7) none none none (some true)
        none none none (some 0))) = none ∧
      (ToolbarButton (IToolbarButton.mk none (some 9) none none none (some false) none none none
        (some 0))).ariaDisabled
        = (IToolbarButton.mk none (some 9) none none none (some false) none none none
            (some 0)).disabled ∧
      (ToolbarButton (IToolbarButton.mk none (some 8) none none none none none none none
        none)).tabIndex = -1) :=
  ⟨⟨by decide, by decide⟩,
    toolbarButton_spec
      (IToolbarButton.mk none (some 7) none none none (some true) none none none (some 0))
      (IToolbarButton.mk none (some 8) none none none none none none none none)
      (IToolbarButton.mk none (some 9) none none none (some false) none none none (some 0))
      (by decide) (by decide)⟩

/-- C10: `clearTagSelection` empties the tag selection, fetches by the
now-empty selection, and leaves the file selection unchanged;
`clearFileSelection` empties the file selection and leaves the tag
selection and the fetch log unchanged. -/
theorem clearSelections_frame (s : UiState) :
    (clearTagSelection s).tagSelection = [] ∧
    (clearTagSelection s).fileSelection = s.fileSelection ∧
    (clearTagSelection s).fetchLog = s.fetchLog ++ [[]] ∧
    (clearFileSelection s).fileSelection = [] ∧
    (clearFileSelection s).tagSelection = s.tagSelection ∧
    (clearFileSelection s).fetchLog = s.fetchLog :=
  ⟨rfl, rfl, rfl, rfl, rfl, rfl⟩

end Allusion
